import Mathlib

/-!
Verification development for the SwissBasketGamesCollector program
(`src/SwissBasketGamesCollector.py`), a shallow embedding of its
schema-reconciling sheet synchronizer, value normalizer, destination
resolver (`get_spreadsheet_id`) and per-team aggregation driver (`main`),
together with theorems settling the specification's claims about them.
-/

namespace SBGC

/-! ## Cells and columns

A dataframe cell is one of the value kinds the program's normalization
steps dispatch on: a missing marker (`NaN`/`NaT`), a timestamp held in a
`datetime64` column, a `datetime.time` object, a `timedelta64` value,
a string, or a number.  A column carries its pandas dtype: the program's
`select_dtypes` calls branch only on `datetime64` and `timedelta64`, so
every other dtype is collapsed into `obj`. -/

inductive DType where
  | datetime64
  | timedelta64
  | obj
deriving DecidableEq

inductive Cell where
  | missing
  | dateTime (y m d : Nat)
  | timeOfDay (hh mi : Nat)
  | duration (secs : Nat)
  | str (s : String)
  | num (n : Int)
deriving DecidableEq

structure Column where
  dtype : DType
  cells : List Cell
deriving DecidableEq

/-- A dataframe: an ordered list of named columns. -/
abbrev Table : Type := List (String × Column)

def pad2 (n : Nat) : String :=
  if n < 10 then "0" ++ toString n else toString n

def pad4 (n : Nat) : String :=
  (if n < 10 then "000" else if n < 100 then "00" else if n < 1000 then "0" else "")
    ++ toString n

/-- `strftime('%Y-%m-%d')` on a timestamp. -/
def fmtDate (y m d : Nat) : String :=
  pad4 y ++ "-" ++ pad2 m ++ "-" ++ pad2 d

/-- `strftime('%H:%M')` on a `datetime.time` object. -/
def fmtTime (hh mi : Nat) : String :=
  pad2 hh ++ ":" ++ pad2 mi

/-- `astype(str)` on a (non-negative) `timedelta64` value. -/
def fmtDuration (secs : Nat) : String :=
  toString (secs / 86400) ++ " days " ++ pad2 (secs % 86400 / 3600) ++ ":"
    ++ pad2 (secs % 3600 / 60) ++ ":" ++ pad2 (secs % 60)

/-! ## Value normalization (`update_sheet`, lines 195-209)

The four normalization steps, in program order:
1. `df.replace({np.nan: ''})` — every missing marker becomes `''`; a
   `datetime64`/`timedelta64` column that contained a missing value is
   thereby coerced to `object` dtype.
2. every `datetime64`-dtyped column is formatted with `strftime('%Y-%m-%d')`;
3. every `timedelta64`-dtyped column is converted with `astype(str)`;
4. in every column that contains a `datetime.time` object, each such
   object is formatted as `'%H:%M'` (other cells of the column unchanged).

All steps act column-wise, so normalization is modelled per column. -/

def replaceCell : Cell → Cell
  | Cell.missing => Cell.str ""
  | c => c

def replaceStep (col : Column) : Column :=
  { dtype := if col.dtype ≠ DType.obj ∧ Cell.missing ∈ col.cells then DType.obj
             else col.dtype
    cells := col.cells.map replaceCell }

def dateCell : Cell → Cell
  | Cell.dateTime y m d => Cell.str (fmtDate y m d)
  | c => c

def durationCell : Cell → Cell
  | Cell.duration s => Cell.str (fmtDuration s)
  | c => c

def timeCell : Cell → Cell
  | Cell.timeOfDay hh mi => Cell.str (fmtTime hh mi)
  | c => c

def isTimeCell : Cell → Bool
  | Cell.timeOfDay _ _ => true
  | _ => false

def normalizeColumn (col : Column) : Column :=
  let c1 := replaceStep col
  let c2 := if c1.dtype = DType.datetime64 then
      { dtype := DType.obj, cells := c1.cells.map dateCell } else c1
  let c3 := if c2.dtype = DType.timedelta64 then
      { dtype := DType.obj, cells := c2.cells.map durationCell } else c2
  if c3.cells.any isTimeCell then
    { dtype := c3.dtype, cells := c3.cells.map timeCell }
  else c3

def normalizeTable (t : Table) : Table :=
  t.map (fun p => (p.1, normalizeColumn p.2))

/-! ## Schema reconciliation (`update_sheet`, lines 223-233)

```
if existing_columns:
    common_columns = [col for col in existing_columns if col in df.columns]
    new_columns = [col for col in df.columns if col not in common_columns]
    if common_columns:
        df = df[common_columns + new_columns]
```
The resulting column order of `df`. -/

/-- `common_columns = [col for col in existing_columns if col in df.columns]` -/
def commonColumns (existingColumns incomingColumns : List String) : List String :=
  existingColumns.filter (fun col => decide (col ∈ incomingColumns))

/-- `new_columns = [col for col in df.columns if col not in common_columns]` -/
def newColumns (existingColumns incomingColumns : List String) : List String :=
  incomingColumns.filter
    (fun col => decide (col ∉ commonColumns existingColumns incomingColumns))

def reconcileCode (existingColumns incomingColumns : List String) : List String :=
  if existingColumns.isEmpty then incomingColumns
  else if (commonColumns existingColumns incomingColumns).isEmpty then incomingColumns
  else commonColumns existingColumns incomingColumns
    ++ newColumns existingColumns incomingColumns

/-- Modelled from the spec's words for the reconciliation rule (§4.2), for
comparison with `reconcileCode`: if the existing list is empty the output is
the incoming list unchanged; otherwise the columns of the existing list that
also appear in the incoming list, in existing order, followed by the incoming
columns not in that set, in incoming order. -/
def specReconcile (existingColumns incomingColumns : List String) : List String :=
  if existingColumns = [] then incomingColumns
  else
    let common := existingColumns.filter (fun col => decide (col ∈ incomingColumns))
    common ++ incomingColumns.filter (fun col => decide (col ∉ common))

/-! ## The sub-view grid and `update_sheet` (lines 166-255)

A sub-view (sheet) is modelled as an unbounded grid of cell values,
`""` meaning empty; writes go through the Sheets `values` API with
`RAW` input, so a written cell holds the string rendering of the value.
`update_sheet`'s remote steps, in order:
- `values().get(range=f"{sheet_name}!A1:Z1")` — read the header row,
  which yields the first 26 cells of row 1 with trailing empties trimmed
  (no `values` key at all when the whole range is empty);
- reconcile the dataframe's column order against that header;
- `values().clear(range=f"{sheet_name}!A1:Z50000")`;
- `values().update(range=f"{sheet_name}!A1", body=[columns] + rows)`. -/

def Grid : Type := Nat → Nat → String

def clearRegion (s : Grid) : Grid :=
  fun r c => if r < 50000 ∧ c < 26 then "" else s r c

def writeValues (vals : List (List String)) (s : Grid) : Grid :=
  fun r c =>
    match (vals.get? r).bind (fun row => row.get? c) with
    | some v => v
    | none => s r c

def trimTrailingEmpty (l : List String) : List String :=
  (l.reverse.dropWhile (fun x => x = "")).reverse

/-- The `existing_columns` obtained from `values().get` on `A1:Z1`. -/
def readHeader (s : Grid) : List String :=
  trimTrailingEmpty ((List.range 26).map (fun c => s 0 c))

/-- The string a (normalized) cell contributes to the written `values`
payload; the temporal constructors can only reach this point unnormalized
and are rendered by their formatters. -/
def cellValue : Cell → String
  | Cell.missing => ""
  | Cell.dateTime y m d => fmtDate y m d
  | Cell.timeOfDay hh mi => fmtTime hh mi
  | Cell.duration s => fmtDuration s
  | Cell.str s => s
  | Cell.num n => toString n

def colNames (t : Table) : List String := t.map (fun p => p.1)

def getCol (t : Table) (name : String) : Column :=
  match t.find? (fun p => p.1 = name) with
  | some p => p.2
  | none => { dtype := DType.obj, cells := [] }

def nrows (t : Table) : Nat :=
  match t with
  | [] => 0
  | p :: _ => p.2.cells.length

/-- `[df.columns.tolist()] + df.values.tolist()` after projecting the
(normalized) dataframe onto the reconciled column order. -/
def valsFor (t : Table) (order : List String) : List (List String) :=
  order :: (List.range (nrows t)).map (fun i =>
    order.map (fun name => cellValue (((getCol t name).cells.get? i).getD Cell.missing)))

/-- The column order `update_sheet` ends up writing for table `t` into a
sub-view currently in state `s`. -/
def orderFor (t : Table) (s : Grid) : List String :=
  reconcileCode (readHeader s) (colNames (normalizeTable t))

/-- The full rectangular payload `update_sheet` writes at `A1`. -/
def updateVals (t : Table) (s : Grid) : List (List String) :=
  valsFor (normalizeTable t) (orderFor t s)

/-- The sub-view state after `update_sheet(sheets_service, id, name, df)`:
normalize, reconcile, clear `A1:Z50000`, then write the payload at `A1`. -/
def updateSheet (t : Table) (s : Grid) : Grid :=
  writeValues (updateVals t s) (clearRegion s)

/-! ## Destination resolver (`get_spreadsheet_id`, lines 83-143)

Remote calls are modelled by oracles whose outcome is success, an
`HttpError` (the `googleapiclient` exception class the probe's `except`
clause catches), or any other exception.  The settings object carries the
effective `spreadsheetId` (`''` when absent, matching
`settings.get(...).get('spreadsheetId', '')`), the effective
`spreadsheetName` (the `'BasketPlan Games'` default already applied) and
a count of `save_settings` persistence writes.  The function's outer
`except` clause logs and re-raises, so errors propagate to the caller. -/

inductive ApiOutcome (α : Type) where
  | ok (a : α)
  | httpError
  | otherError
deriving DecidableEq

inductive RunError where
  | http
  | other
deriving DecidableEq

structure DriveEnv where
  probeSpreadsheet : String → ApiOutcome Unit
  listByName : String → ApiOutcome (List String)
  createSpreadsheet : String → ApiOutcome String

structure GSettings where
  spreadsheetId : String
  spreadsheetName : String
  saveCount : Nat
deriving DecidableEq

/-- Steps 2 and 3 of `get_spreadsheet_id`: search Drive for a spreadsheet
with the configured name (first match wins), otherwise create one; either
way persist the id and name into the settings. -/
def searchOrCreate (env : DriveEnv) (st : GSettings) :
    Except RunError (String × GSettings) :=
  match env.listByName st.spreadsheetName with
  | ApiOutcome.ok files =>
    match files with
    | fid :: _ =>
      Except.ok (fid, { st with spreadsheetId := fid, saveCount := st.saveCount + 1 })
    | [] =>
      match env.createSpreadsheet st.spreadsheetName with
      | ApiOutcome.ok nid =>
        Except.ok (nid, { st with spreadsheetId := nid, saveCount := st.saveCount + 1 })
      | ApiOutcome.httpError => Except.error RunError.http
      | ApiOutcome.otherError => Except.error RunError.other
  | ApiOutcome.httpError => Except.error RunError.http
  | ApiOutcome.otherError => Except.error RunError.other

/-- `get_spreadsheet_id`: if a spreadsheet id is configured, probe it with
`spreadsheets().get`; on success return it unchanged; on `HttpError` fall
through to search-or-create; any other exception propagates.  With no
configured id, go straight to search-or-create. -/
def get_spreadsheet_id (env : DriveEnv) (st : GSettings) :
    Except RunError (String × GSettings) :=
  if st.spreadsheetId = "" then searchOrCreate env st
  else
    match env.probeSpreadsheet st.spreadsheetId with
    | ApiOutcome.ok _ => Except.ok (st.spreadsheetId, st)
    | ApiOutcome.httpError => searchOrCreate env st
    | ApiOutcome.otherError => Except.error RunError.other

/-! ## Aggregation driver (`main`, lines 279-329)

The per-team loop: skip a team whose configured id is empty; otherwise
download and decode its dataset (any exception is caught and the team
skipped), tag it with a `Team` column, derive a `Week` column (ISO week of
the `Datum` column, which raises — and so skips the team — when `Datum` is
not `datetime64`-typed), accumulate it for the combined sheet, and update
the team's sheet (name truncated to 24 characters).  The model records the
remote operations attempted as a list of events together with the list of
accumulated tables. -/

def isLeapYear (y : Nat) : Bool :=
  (y % 4 = 0 ∧ y % 100 ≠ 0) ∨ y % 400 = 0

def daysInMonth (y m : Nat) : Nat :=
  if m = 2 then (if isLeapYear y then 29 else 28)
  else if m = 4 ∨ m = 6 ∨ m = 9 ∨ m = 11 then 30
  else 31

def dayOfYear (y m d : Nat) : Nat :=
  d + ((List.range m).filter (fun k => decide (1 ≤ k))).foldl
        (fun acc k => acc + daysInMonth y k) 0

/-- ISO weekday (1 = Monday .. 7 = Sunday), via days since 0001-01-01,
which was a Monday in the proleptic Gregorian calendar. -/
def isoWeekday (y m d : Nat) : Nat :=
  (365 * (y - 1) + (y - 1) / 4 - (y - 1) / 100 + (y - 1) / 400
    + dayOfYear y m d - 1) % 7 + 1

def weeksInYear (y : Nat) : Nat :=
  let p : Nat → Nat := fun n => (n + n / 4 - n / 100 + n / 400) % 7
  if p y = 4 ∨ p (y - 1) = 3 then 53 else 52

/-- The ISO-8601 week number, as `Series.dt.isocalendar().week` yields. -/
def isoWeek (y m d : Nat) : Nat :=
  let w := (dayOfYear y m d + 10 - isoWeekday y m d) / 7
  if w = 0 then weeksInYear (y - 1)
  else if w = 53 ∧ weeksInYear y = 52 then 1
  else w

/-- `df[name] = column`: replace the column in place when the name exists,
otherwise append it at the end. -/
def setColumn (t : Table) (name : String) (col : Column) : Table :=
  if t.any (fun p => p.1 = name) then
    t.map (fun p => if p.1 = name then (name, col) else p)
  else t ++ [(name, col)]

def weekCell : Cell → Cell
  | Cell.dateTime y m d => Cell.num (Int.ofNat (isoWeek y m d))
  | _ => Cell.missing

/-- `df['Week'] = df['Datum'].dt.isocalendar().week` when a `Datum` column
is present; the `.dt` accessor raises (`none`) unless that column's dtype
is `datetime64`. -/
def addWeek (t : Table) : Option Table :=
  match t.find? (fun p => p.1 = "Datum") with
  | none => some t
  | some p =>
    if p.2.dtype = DType.datetime64 then
      some (setColumn t "Week" { dtype := DType.obj, cells := p.2.cells.map weekCell })
    else none

/-- `df['Team'] = team_name` followed by the `Week` derivation. -/
def addTeamAndWeek (name : String) (t : Table) : Option Table :=
  addWeek (setColumn t "Team"
    { dtype := DType.obj, cells := List.replicate (nrows t) (Cell.str name) })

structure Team where
  name : String
  id : String
deriving DecidableEq

structure FetchEnv where
  fetch : String → Option Table

inductive Event where
  | download (teamId : String)
  | updateSheetCall (sheetName : String)

/-- One iteration of the per-team loop: the remote operations attempted
and the table appended to `all_games` (if any). -/
def processTeam (env : FetchEnv) (t : Team) : List Event × Option Table :=
  if t.id = "" then ([], none)
  else
    match env.fetch t.id with
    | none => ([Event.download t.id], none)
    | some tbl =>
      match addTeamAndWeek t.name tbl with
      | none => ([Event.download t.id], none)
      | some tbl2 =>
        ([Event.download t.id, Event.updateSheetCall (t.name.take 24)], some tbl2)

/-- The whole per-team loop of `main`, in configuration order. -/
def processTeams (env : FetchEnv) : List Team → List Event × List Table
  | [] => ([], [])
  | t :: rest =>
    let step := processTeam env t
    let acc := processTeams env rest
    (step.1 ++ acc.1, step.2.toList ++ acc.2)

/-! ## Reconciler lemmas -/

theorem mem_commonColumns {x : String} {E I : List String} :
    x ∈ commonColumns E I ↔ x ∈ E ∧ x ∈ I := by
  simp [commonColumns, List.mem_filter]

theorem mem_newColumns {x : String} {E I : List String} :
    x ∈ newColumns E I ↔ x ∈ I ∧ x ∉ commonColumns E I := by
  simp [newColumns, List.mem_filter]

theorem mem_of_mem_reconcileCode {x : String} {E I : List String}
    (h : x ∈ reconcileCode E I) : x ∈ I := by
  unfold reconcileCode at h
  split at h
  · exact h
  · split at h
    · exact h
    · rcases List.mem_append.mp h with h2 | h2
      · exact (mem_commonColumns.mp h2).2
      · exact (mem_newColumns.mp h2).1

theorem mem_reconcileCode_of_mem {x : String} {E I : List String}
    (h : x ∈ I) : x ∈ reconcileCode E I := by
  unfold reconcileCode
  split
  · exact h
  · split
    · exact h
    · by_cases hc : x ∈ commonColumns E I
      · exact List.mem_append.mpr (Or.inl hc)
      · exact List.mem_append.mpr (Or.inr (mem_newColumns.mpr ⟨h, hc⟩))

theorem reconcileCode_eq_nil {E I : List String}
    (h : reconcileCode E I = []) : I = [] := by
  unfold reconcileCode at h
  split at h
  · exact h
  · split at h
    · exact h
    · rename_i hc
      exact absurd (List.isEmpty_iff.mpr (List.append_eq_nil.mp h).1) hc

/-- Reconciling a list against `I` is the identity on any list whose
members are exactly the members of `I` (unless both are empty). -/
theorem reconcileCode_fix {O I : List String}
    (hmem : ∀ x ∈ O, x ∈ I) (hmem2 : ∀ x ∈ I, x ∈ O) (hnil : O = [] → I = []) :
    reconcileCode O I = O := by
  by_cases hO : O.isEmpty
  · have hOnil : O = [] := List.isEmpty_iff.mp hO
    rw [hOnil, hnil hOnil]
    rfl
  · have hcommon : commonColumns O I = O :=
      List.filter_eq_self.mpr (fun a ha => decide_eq_true (hmem a ha))
    have hnew : newColumns O I = [] := by
      apply List.filter_eq_nil_iff.mpr
      intro a ha
      rw [hcommon]
      simp only [decide_not, Bool.not_eq_true', decide_eq_false_iff_not, not_not]
      exact hmem2 a ha
    unfold reconcileCode
    rw [if_neg hO, hcommon, if_neg hO, hnew, List.append_nil]

theorem reconcileCode_self (E I : List String) :
    reconcileCode (reconcileCode E I) I = reconcileCode E I :=
  reconcileCode_fix (fun _ hx => mem_of_mem_reconcileCode hx)
    (fun _ hx => mem_reconcileCode_of_mem hx) reconcileCode_eq_nil

theorem filter_not_mem_take {α : Type _} [DecidableEq α] :
    ∀ (l : List α) (k : Nat), l.Nodup →
      l.filter (fun x => decide (x ∉ l.take k)) = l.drop k := by
  intro l
  induction l with
  | nil => intro k _; simp
  | cons x xs ih =>
    intro k hnd
    cases k with
    | zero => simp
    | succ k =>
      rw [List.take_succ_cons, List.drop_succ_cons, List.filter_cons]
      have hx : (decide (x ∉ x :: xs.take k)) = false := by simp
      rw [hx]
      have hxnotin : x ∉ xs := (List.nodup_cons.mp hnd).1
      have hcong : xs.filter (fun y => decide (y ∉ x :: xs.take k))
          = xs.filter (fun y => decide (y ∉ xs.take k)) := by
        apply List.filter_congr
        intro y hy
        have hyx : y ≠ x := fun h => hxnotin (h ▸ hy)
        simp [List.mem_cons, hyx]
      rw [hcong]
      exact ih k (List.nodup_cons.mp hnd).2

theorem reconcileCode_take_incoming (I : List String) (n : Nat) (hI : I.Nodup) :
    reconcileCode (I.take n) I = I := by
  by_cases hT : (I.take n).isEmpty
  · rw [List.isEmpty_iff.mp hT]
    rfl
  · have hcommon : commonColumns (I.take n) I = I.take n :=
      List.filter_eq_self.mpr
        (fun a ha => decide_eq_true (List.mem_of_mem_take ha))
    have hnew : newColumns (I.take n) I = I.drop n := by
      unfold newColumns
      rw [hcommon]
      exact filter_not_mem_take I n hI
    unfold reconcileCode
    rw [if_neg hT, hcommon, if_neg hT, hnew, List.take_append_drop]

/-- Truncating a reconciled order to a window at least as large as the
existing header and reconciling again reproduces the full order: the part
that is cut off is a suffix of the (duplicate-free) incoming columns and is
re-appended in the same order. -/
theorem reconcileCode_take (E I : List String) (n : Nat)
    (hI : I.Nodup) (hE : E.length ≤ n) :
    reconcileCode ((reconcileCode E I).take n) I = reconcileCode E I := by
  by_cases hEe : E.isEmpty
  · rw [show reconcileCode E I = I by unfold reconcileCode; rw [if_pos hEe]]
    exact reconcileCode_take_incoming I n hI
  · by_cases hc : (commonColumns E I).isEmpty
    · rw [show reconcileCode E I = I by
        unfold reconcileCode; rw [if_neg hEe, if_pos hc]]
      exact reconcileCode_take_incoming I n hI
    · have hOC : reconcileCode E I = commonColumns E I ++ newColumns E I := by
        unfold reconcileCode
        rw [if_neg hEe, if_neg hc]
      set C := commonColumns E I with hCdef
      set N := newColumns E I with hNdef
      have hClen : C.length ≤ n :=
        le_trans (List.length_filter_le _ _) hE
      have htake : (C ++ N).take n = C ++ N.take (n - C.length) := by
        rw [List.take_append_eq_append_take, List.take_of_length_le hClen]
      rw [hOC, htake]
      set k := n - C.length
      have hCne : ¬(C ++ N.take k).isEmpty := by
        simp only [List.isEmpty_iff, List.append_eq_nil]
        intro hcon
        exact absurd (List.isEmpty_iff.mpr hcon.1) hc
      have hmemI : ∀ x ∈ C ++ N.take k, x ∈ I := by
        intro x hx
        rcases List.mem_append.mp hx with hx2 | hx2
        · exact (mem_commonColumns.mp (hCdef ▸ hx2)).2
        · exact (mem_newColumns.mp (hNdef ▸ List.mem_of_mem_take hx2)).1
      have hcommon2 : commonColumns (C ++ N.take k) I = C ++ N.take k :=
        List.filter_eq_self.mpr (fun a ha => decide_eq_true (hmemI a ha))
      have hnew2 : newColumns (C ++ N.take k) I = N.drop k := by
        unfold newColumns
        rw [hcommon2]
        have hsplit : I.filter (fun col => decide (col ∉ C ++ N.take k))
            = (I.filter (fun col => decide (col ∉ C))).filter
                (fun col => decide (col ∉ N.take k)) := by
          rw [List.filter_filter]
          apply List.filter_congr
          intro y _
          simp only [List.mem_append, not_or, decide_not, Bool.decide_and]
          rw [Bool.and_comm]
        rw [hsplit]
        have hNfilter : I.filter (fun col => decide (col ∉ C)) = N := by
          rw [hNdef, hCdef]
          rfl
        rw [hNfilter]
        exact filter_not_mem_take N k (hI.filter _)
      unfold reconcileCode
      rw [if_neg hCne, hcommon2, if_neg hCne, hnew2, List.append_assoc,
        List.take_append_drop]

/-! ## Grid lemmas -/

theorem writeValues_eval (vals : List (List String)) (s : Grid) (r c : Nat) :
    writeValues vals s r c
      = match (vals.get? r).bind (fun row => row.get? c) with
        | some v => v
        | none => s r c := rfl

theorem range_map_getD (l : List String) (n : Nat) :
    (List.range n).map (fun c => (l.get? c).getD "")
      = l.take n ++ List.replicate (n - l.length) "" := by
  induction n with
  | zero => simp
  | succ n ih =>
    rw [List.range_succ, List.map_append, ih]
    simp only [List.map_cons, List.map_nil]
    by_cases h : l.length ≤ n
    · rw [List.get?_eq_none.mpr h, List.take_of_length_le h,
        List.take_of_length_le (Nat.le_succ_of_le h)]
      have h3 : n + 1 - l.length = (n - l.length) + 1 := by omega
      rw [h3, List.replicate_succ']
      simp
    · push_neg at h
      have h0 : n + 1 - l.length = 0 := by omega
      have h1 : n - l.length = 0 := by omega
      rw [h0, h1, List.take_succ, List.get?_eq_getElem?]
      cases h2 : l[n]? with
      | none => exact absurd (List.getElem?_eq_none_iff.mp h2) (Nat.not_le.mpr h)
      | some v => simp

theorem trimTrailingEmpty_append_replicate (xs : List String) (k : Nat) :
    trimTrailingEmpty (xs ++ List.replicate k "") = trimTrailingEmpty xs := by
  unfold trimTrailingEmpty
  rw [List.reverse_append, List.reverse_replicate,
    List.dropWhile_append_of_pos (by intro a ha; simp at ha; simp [ha.2])]

theorem trimTrailingEmpty_of_not_mem {l : List String} (h : "" ∉ l) :
    trimTrailingEmpty l = l := by
  unfold trimTrailingEmpty
  cases hr : l.reverse with
  | nil => simp [List.reverse_eq_nil_iff.mp hr]
  | cons x xs =>
    have hx : x ∈ l := by
      rw [← List.mem_reverse, hr]
      exact List.mem_cons_self x xs
    have hxne : ¬(x = "") := fun he => h (he ▸ hx)
    rw [List.dropWhile_cons, if_neg (by simpa using hxne), ← hr,
      List.reverse_reverse]

theorem trimTrailingEmpty_length_le (l : List String) :
    (trimTrailingEmpty l).length ≤ l.length := by
  unfold trimTrailingEmpty
  rw [List.length_reverse]
  calc (l.reverse.dropWhile (fun x => x = "")).length
      ≤ l.reverse.length := (List.dropWhile_suffix _).sublist.length_le
    _ = l.length := List.length_reverse l

theorem readHeader_length_le (s : Grid) : (readHeader s).length ≤ 26 := by
  have h := trimTrailingEmpty_length_le ((List.range 26).map (fun c => s 0 c))
  simpa [readHeader] using h

theorem colNames_normalizeTable (t : Table) :
    colNames (normalizeTable t) = colNames t := by
  simp [colNames, normalizeTable]

theorem mem_orderFor {x : String} {t : Table} {s : Grid}
    (h : x ∈ orderFor t s) : x ∈ colNames (normalizeTable t) :=
  mem_of_mem_reconcileCode h

/-- After `update_sheet`, the `A1:Z1` read sees exactly the first 26 entries
of the column order that was just written (the written header fills the
row's start; the clear blanked the rest of the window). -/
theorem readHeader_updateSheet (t : Table) (s : Grid)
    (hne : "" ∉ colNames (normalizeTable t)) :
    readHeader (updateSheet t s) = (orderFor t s).take 26 := by
  have hcell : ∀ c ∈ List.range 26,
      updateSheet t s 0 c = ((orderFor t s).get? c).getD "" := by
    intro c hc
    have hlt : c < 26 := List.mem_range.mp hc
    show writeValues (updateVals t s) (clearRegion s) 0 c = _
    rw [writeValues_eval]
    have h0 : (updateVals t s).get? 0 = some (orderFor t s) := rfl
    rw [h0]
    cases hg : (orderFor t s)[c]? with
    | some v => simp [List.get?_eq_getElem?, hg]
    | none => simp [List.get?_eq_getElem?, hg, clearRegion, hlt]
  have hmap : (List.range 26).map (fun c => updateSheet t s 0 c)
      = (List.range 26).map (fun c => ((orderFor t s).get? c).getD "") :=
    List.map_congr_left hcell
  have hnotmem : "" ∉ (orderFor t s).take 26 :=
    fun hmem => hne (mem_orderFor (List.mem_of_mem_take hmem))
  unfold readHeader
  rw [hmap, range_map_getD, trimTrailingEmpty_append_replicate,
    trimTrailingEmpty_of_not_mem hnotmem]

theorem orderFor_updateSheet (t : Table) (s : Grid)
    (hnd : (colNames (normalizeTable t)).Nodup)
    (hne : "" ∉ colNames (normalizeTable t)) :
    orderFor t (updateSheet t s) = orderFor t s := by
  unfold orderFor
  have h1 : readHeader (updateSheet t s) = (orderFor t s).take 26 :=
    readHeader_updateSheet t s hne
  rw [h1]
  exact reconcileCode_take (readHeader s) _ 26 hnd (readHeader_length_le s)

/-! ## Normalization lemmas -/

theorem get?_map_cells {l : List Cell} {i : Nat} {x : Cell} (f : Cell → Cell)
    (h : l.get? i = some x) : (l.map f).get? i = some (f x) := by
  rw [List.get?_map, h]
  rfl

theorem step4_cells_get (c : Column) {i : Nat} {x : Cell}
    (h : c.cells.get? i = some x) :
    (if c.cells.any isTimeCell then
        ({ dtype := c.dtype, cells := c.cells.map timeCell } : Column)
      else c).cells.get? i = some (timeCell x) := by
  by_cases hg : c.cells.any isTimeCell
  · rw [if_pos hg]
    exact get?_map_cells timeCell h
  · rw [if_neg hg]
    have hnt : isTimeCell x = false := by
      cases hxx : isTimeCell x
      · rfl
      · exact absurd (List.any_of_mem (List.get?_mem h) hxx) hg
    have hx : timeCell x = x := by
      cases x <;> simp_all [timeCell, isTimeCell]
    rw [hx]
    exact h

theorem normalizeColumn_missing {col : Column} {i : Nat}
    (h : col.cells.get? i = some Cell.missing) :
    (normalizeColumn col).cells.get? i = some (Cell.str "") := by
  obtain ⟨dt, cs⟩ := col
  have hm : Cell.missing ∈ cs := List.get?_mem h
  have h1 : (replaceStep ⟨dt, cs⟩).dtype = DType.obj := by
    cases dt <;> simp [replaceStep, hm]
  have h1c : (replaceStep ⟨dt, cs⟩).cells.get? i = some (Cell.str "") :=
    get?_map_cells replaceCell h
  have h4 := step4_cells_get (replaceStep ⟨dt, cs⟩) h1c
  rw [h1] at h4
  simp only [normalizeColumn, h1, reduceCtorEq, if_false]
  exact h4

theorem normalizeColumn_time {col : Column} {i : Nat} {hh mi : Nat}
    (h : col.cells.get? i = some (Cell.timeOfDay hh mi)) :
    (normalizeColumn col).cells.get? i = some (Cell.str (fmtTime hh mi)) := by
  obtain ⟨dt, cs⟩ := col
  have h1c : (replaceStep ⟨dt, cs⟩).cells.get? i = some (Cell.timeOfDay hh mi) :=
    get?_map_cells replaceCell h
  simp only [normalizeColumn]
  by_cases h2 : (replaceStep ⟨dt, cs⟩).dtype = DType.datetime64
  · rw [if_pos h2]
    have h2c : ((replaceStep ⟨dt, cs⟩).cells.map dateCell).get? i
        = some (Cell.timeOfDay hh mi) := get?_map_cells dateCell h1c
    have h4 := step4_cells_get
      { dtype := DType.obj, cells := (replaceStep ⟨dt, cs⟩).cells.map dateCell } h2c
    simpa using h4
  · rw [if_neg h2]
    by_cases h3 : (replaceStep ⟨dt, cs⟩).dtype = DType.timedelta64
    · rw [if_pos h3]
      have h3c : ((replaceStep ⟨dt, cs⟩).cells.map durationCell).get? i
          = some (Cell.timeOfDay hh mi) := get?_map_cells durationCell h1c
      have h4 := step4_cells_get
        { dtype := DType.obj, cells := (replaceStep ⟨dt, cs⟩).cells.map durationCell } h3c
      simpa using h4
    · rw [if_neg h3]
      have h4 := step4_cells_get (replaceStep ⟨dt, cs⟩) h1c
      simpa using h4

theorem replaceStep_dtype_of_not_missing {col : Column}
    (hm : Cell.missing ∉ col.cells) : (replaceStep col).dtype = col.dtype := by
  simp [replaceStep, hm]

theorem normalizeColumn_date {col : Column} {i y m d : Nat}
    (hdt : col.dtype = DType.datetime64) (hm : Cell.missing ∉ col.cells)
    (h : col.cells.get? i = some (Cell.dateTime y m d)) :
    (normalizeColumn col).cells.get? i = some (Cell.str (fmtDate y m d)) := by
  have h1 : (replaceStep col).dtype = DType.datetime64 := by
    rw [replaceStep_dtype_of_not_missing hm, hdt]
  have h1c : (replaceStep col).cells.get? i = some (Cell.dateTime y m d) :=
    get?_map_cells replaceCell h
  have h2c : ((replaceStep col).cells.map dateCell).get? i
      = some (Cell.str (fmtDate y m d)) := get?_map_cells dateCell h1c
  have h4 := step4_cells_get
    { dtype := DType.obj, cells := (replaceStep col).cells.map dateCell } h2c
  simp only [normalizeColumn, h1, if_true, reduceCtorEq, if_false]
  exact h4

theorem normalizeColumn_duration {col : Column} {i : Nat} {secs : Nat}
    (hdt : col.dtype = DType.timedelta64) (hm : Cell.missing ∉ col.cells)
    (h : col.cells.get? i = some (Cell.duration secs)) :
    (normalizeColumn col).cells.get? i = some (Cell.str (fmtDuration secs)) := by
  have h1 : (replaceStep col).dtype = DType.timedelta64 := by
    rw [replaceStep_dtype_of_not_missing hm, hdt]
  have h1c : (replaceStep col).cells.get? i = some (Cell.duration secs) :=
    get?_map_cells replaceCell h
  have h3c : ((replaceStep col).cells.map durationCell).get? i
      = some (Cell.str (fmtDuration secs)) := get?_map_cells durationCell h1c
  have h4 := step4_cells_get
    { dtype := DType.obj, cells := (replaceStep col).cells.map durationCell } h3c
  simp only [normalizeColumn, h1, if_true, reduceCtorEq, if_false]
  exact h4

theorem normalizeColumn_inert {col : Column} {i : Nat} {x : Cell}
    (h : col.cells.get? i = some x)
    (hr : replaceCell x = x) (hd : dateCell x = x) (hu : durationCell x = x)
    (ht : timeCell x = x) :
    (normalizeColumn col).cells.get? i = some x := by
  have h1c : (replaceStep col).cells.get? i = some x := by
    have := get?_map_cells replaceCell h
    rwa [hr] at this
  simp only [normalizeColumn]
  by_cases h2 : (replaceStep col).dtype = DType.datetime64
  · rw [if_pos h2]
    have h2c : ((replaceStep col).cells.map dateCell).get? i = some x := by
      have := get?_map_cells dateCell h1c
      rwa [hd] at this
    have h4 := step4_cells_get
      { dtype := DType.obj, cells := (replaceStep col).cells.map dateCell } h2c
    rw [ht] at h4
    simpa using h4
  · rw [if_neg h2]
    by_cases h3 : (replaceStep col).dtype = DType.timedelta64
    · rw [if_pos h3]
      have h3c : ((replaceStep col).cells.map durationCell).get? i = some x := by
        have := get?_map_cells durationCell h1c
        rwa [hu] at this
      have h4 := step4_cells_get
        { dtype := DType.obj, cells := (replaceStep col).cells.map durationCell } h3c
      rw [ht] at h4
      simpa using h4
    · rw [if_neg h3]
      have h4 := step4_cells_get (replaceStep col) h1c
      rw [ht] at h4
      exact h4

theorem normalizeColumn_coerced {col : Column} {i : Nat} {x : Cell}
    (h1 : (replaceStep col).dtype = DType.obj)
    (h : col.cells.get? i = some x) :
    (normalizeColumn col).cells.get? i = some (timeCell (replaceCell x)) := by
  have h1c : (replaceStep col).cells.get? i = some (replaceCell x) :=
    get?_map_cells replaceCell h
  have h4 := step4_cells_get (replaceStep col) h1c
  rw [h1] at h4
  simp only [normalizeColumn, h1, reduceCtorEq, if_false]
  exact h4

theorem normalizeColumn_obj {col : Column} {i : Nat} {x : Cell}
    (hdt : col.dtype = DType.obj) (h : col.cells.get? i = some x) :
    (normalizeColumn col).cells.get? i = some (timeCell (replaceCell x)) :=
  normalizeColumn_coerced (by simp [replaceStep, hdt]) h

/-! ## Claims -/

/-- C1: for every existing column list and incoming column list, the
reconciliation step of `update_sheet` produces exactly the order the spec
describes: if the existing list is empty the incoming order unchanged,
otherwise the existing columns that also appear in the incoming list, in
existing order, followed by the remaining incoming columns, in incoming
order.  (The code's extra `if common_columns:` guard changes nothing: when
no existing column survives, the appended part is the whole incoming
list.) -/
theorem reconcile_matches_spec (E I : List String) :
    reconcileCode E I = specReconcile E I := by
  unfold reconcileCode specReconcile
  by_cases hE : E.isEmpty
  · rw [if_pos hE, if_pos (List.isEmpty_iff.mp hE)]
  · rw [if_neg hE, if_neg (fun h => hE (List.isEmpty_iff.mpr h))]
    by_cases hc : (commonColumns E I).isEmpty
    · rw [if_pos hc]
      have hnil : commonColumns E I = [] := List.isEmpty_iff.mp hc
      unfold commonColumns at hnil
      rw [hnil]
      show I = [] ++ I.filter (fun col => decide (col ∉ ([] : List String)))
      rw [List.filter_eq_self.mpr (by intro a _; simp), List.nil_append]
    · rw [if_neg hc]
      rfl

/-- C8: reconciliation is idempotent: re-applying the reconciliation step
to its own output with the same incoming columns yields the output
unchanged, for all existing orders and incoming lists. -/
theorem reconcile_idempotent (E I : List String) :
    reconcileCode (reconcileCode E I) I = reconcileCode E I :=
  reconcileCode_self E I

/-- C3 (amended): for every table whose column names are pairwise distinct
and nonempty, running `update_sheet` twice in a row with identical table
content on the same sub-view produces identical final sub-view state. -/
theorem updateSheet_idempotent (t : Table) (s : Grid)
    (hnd : (colNames t).Nodup) (hne : "" ∉ colNames t) :
    updateSheet t (updateSheet t s) = updateSheet t s := by
  have hnd2 : (colNames (normalizeTable t)).Nodup := by
    rw [colNames_normalizeTable]
    exact hnd
  have hne2 : "" ∉ colNames (normalizeTable t) := by
    rw [colNames_normalizeTable]
    exact hne
  have hvals : updateVals t (updateSheet t s) = updateVals t s := by
    unfold updateVals
    rw [orderFor_updateSheet t s hnd2 hne2]
  funext r c
  show writeValues (updateVals t (updateSheet t s)) (clearRegion (updateSheet t s)) r c
      = updateSheet t s r c
  rw [hvals, writeValues_eval]
  cases hv : ((updateVals t s).get? r).bind (fun row => row.get? c) with
  | some v =>
    show v = writeValues (updateVals t s) (clearRegion s) r c
    rw [writeValues_eval, hv]
  | none =>
    have hrhs : updateSheet t s r c = clearRegion s r c := by
      show writeValues (updateVals t s) (clearRegion s) r c = _
      rw [writeValues_eval, hv]
    show clearRegion (updateSheet t s) r c = updateSheet t s r c
    by_cases hP : r < 50000 ∧ c < 26
    · rw [hrhs]
      simp [clearRegion, hP]
    · simp [clearRegion, hP]

/-- The table used in the C3 counterexample: a single data row whose only
column is named by the empty string. -/
def emptyNameTable : Table :=
  [("", { dtype := DType.obj, cells := [Cell.str "v"] })]

/-- The initial sub-view state of the C3 counterexample: a header row
whose cells `A1..D1` read `"", "a", "", "b"`. -/
def weirdGrid : Grid := fun r c =>
  if r = 0 ∧ c = 1 then "a" else if r = 0 ∧ c = 3 then "b" else ""

/-- C3 counterexample: as stated over every table, double application of
`update_sheet` is not idempotent: for the one-column table whose column is
named `""`, the first run writes the header `["", ""]` (the empty name
matches twice in the stale header `["", "a", "", "b"]`) and duplicates the
data cell, while the second run, reading back an all-empty header window,
writes a single column — so cell `B2` holds `"v"` after one run and `""`
after two. -/
theorem updateSheet_not_idempotent :
    updateSheet emptyNameTable (updateSheet emptyNameTable weirdGrid) 1 1
        ≠ updateSheet emptyNameTable weirdGrid 1 1
      ∧ updateSheet emptyNameTable weirdGrid 1 1 = "v" := by
  constructor
  · decide
  · decide

/-- Witness for the amended C3 theorem at a concrete input: a one-column
table named `"A"` over the everywhere-empty sub-view. -/
theorem updateSheet_idempotent_witness :
    (colNames [(("A" : String), ({ dtype := DType.obj, cells := [Cell.str "x"] } : Column))]).Nodup
      ∧ "" ∉ colNames [(("A" : String), ({ dtype := DType.obj, cells := [Cell.str "x"] } : Column))]
      ∧ updateSheet [(("A" : String), ({ dtype := DType.obj, cells := [Cell.str "x"] } : Column))]
          (updateSheet [("A", { dtype := DType.obj, cells := [Cell.str "x"] })] (fun _ _ => ""))
        = updateSheet [("A", { dtype := DType.obj, cells := [Cell.str "x"] })] (fun _ _ => "") :=
  ⟨by decide, by decide,
    updateSheet_idempotent [("A", { dtype := DType.obj, cells := [Cell.str "x"] })]
      (fun _ _ => "") (by decide) (by decide)⟩

/-- A sub-view whose cell `AA1` (row 1, column 27) holds a value written
by an earlier run, outside the `A1:Z50000` clear window. -/
def staleGrid : Grid := fun r c =>
  if r = 0 ∧ c = 26 then "stale" else ""

/-- A one-column, one-row table. -/
def oneColTable : Table :=
  [("A", { dtype := DType.obj, cells := [Cell.str "x"] })]

/-- C2 counterexample: the clear is bounded to `A1:Z50000`, so it does not
erase every stale cell left by a previous write: syncing a one-column
table writes only the 2-by-1 rectangle `[["A"], ["x"]]`, yet cell `AA1` —
outside that rectangle — still holds the earlier run's `"stale"` after the
sync completes. -/
theorem clear_leaves_stale_cell :
    updateVals oneColTable staleGrid = [["A"], ["x"]]
      ∧ updateSheet oneColTable staleGrid 0 26 = "stale"
      ∧ "stale" ≠ "" :=
  ⟨by decide, by decide, by decide⟩

/-- C2 (amended): the clear step erases every stale cell inside the
cleared window: after `update_sheet`, any cell within rows 1..50000 and
columns A..Z that the new header-plus-data payload does not cover is
empty.  (Cells beyond column Z or row 50000 may keep earlier values.) -/
theorem clear_erases_within_window (t : Table) (s : Grid) (r c : Nat)
    (hr : r < 50000) (hc : c < 26)
    (hcov : ((updateVals t s).get? r).bind (fun row => row.get? c) = none) :
    updateSheet t s r c = "" := by
  show writeValues (updateVals t s) (clearRegion s) r c = ""
  rw [writeValues_eval, hcov]
  simp [clearRegion, hr, hc]

/-- Witness for the amended C2 theorem: cell `D6` of the stale sub-view is
inside the clear window, uncovered by the 2-by-1 payload, and empty after
the sync. -/
theorem clear_erases_within_window_witness :
    ((updateVals oneColTable staleGrid).get? 5).bind (fun row => row.get? 3) = none
      ∧ updateSheet oneColTable staleGrid 5 3 = "" :=
  ⟨by decide,
    clear_erases_within_window oneColTable staleGrid 5 3 (by decide) (by decide)
      (by decide)⟩

/-- A sub-view whose header row (row 1) holds the given list of column
names, over an arbitrary remainder. -/
def withHeaderRow (hdr : List String) (s : Grid) : Grid :=
  fun r c => if r = 0 then (hdr.get? c).getD "" else s r c

/-- C9: the header read of `update_sheet` requests only `A1:Z1`, the first
26 header cells, so the read header, the reconciled order, and the whole
written payload are identical whether the header row holds `hdr` or only
its first 26 entries: every existing column beyond the 26th is invisible
to reconciliation and treated as if it did not exist. -/
theorem header_read_window (hdr : List String) (s : Grid) (t : Table) :
    readHeader (withHeaderRow hdr s) = readHeader (withHeaderRow (hdr.take 26) s)
      ∧ orderFor t (withHeaderRow hdr s) = orderFor t (withHeaderRow (hdr.take 26) s)
      ∧ updateVals t (withHeaderRow hdr s) = updateVals t (withHeaderRow (hdr.take 26) s) := by
  have h1 : readHeader (withHeaderRow hdr s)
      = readHeader (withHeaderRow (hdr.take 26) s) := by
    unfold readHeader
    congr 1
    apply List.map_congr_left
    intro c hcmem
    have hlt : c < 26 := List.mem_range.mp hcmem
    show (hdr.get? c).getD "" = ((hdr.take 26).get? c).getD ""
    rw [List.get?_take hlt]
  have h2 : orderFor t (withHeaderRow hdr s)
      = orderFor t (withHeaderRow (hdr.take 26) s) := by
    unfold orderFor
    rw [h1]
  exact ⟨h1, h2, by unfold updateVals; rw [h2]⟩

/-- C5: when a spreadsheet id is configured and its existence probe
succeeds, `get_spreadsheet_id` returns that id unchanged and performs zero
writes to the configuration: the settings value it returns is the input
settings value, field for field, including the persistence-write count. -/
theorem resolver_fast_path (env : DriveEnv) (st : GSettings)
    (hid : st.spreadsheetId ≠ "")
    (hprobe : env.probeSpreadsheet st.spreadsheetId = ApiOutcome.ok ()) :
    get_spreadsheet_id env st = Except.ok (st.spreadsheetId, st) := by
  unfold get_spreadsheet_id
  rw [if_neg hid, hprobe]

/-- An environment whose probe always succeeds. -/
def okProbeEnv : DriveEnv :=
  { probeSpreadsheet := fun _ => ApiOutcome.ok ()
    listByName := fun _ => ApiOutcome.otherError
    createSpreadsheet := fun _ => ApiOutcome.otherError }

/-- Settings carrying a cached spreadsheet id. -/
def cachedSettings : GSettings :=
  { spreadsheetId := "cached", spreadsheetName := "BasketPlan Games", saveCount := 0 }

/-- Witness for the C5 theorem at a concrete configuration. -/
theorem resolver_fast_path_witness :
    cachedSettings.spreadsheetId ≠ ""
      ∧ get_spreadsheet_id okProbeEnv cachedSettings
          = Except.ok (cachedSettings.spreadsheetId, cachedSettings) :=
  ⟨by decide, resolver_fast_path okProbeEnv cachedSettings (by decide) rfl⟩

/-- An environment whose probe fails with a non-`HttpError` exception but
whose name search would succeed. -/
def badProbeEnv : DriveEnv :=
  { probeSpreadsheet := fun _ => ApiOutcome.otherError
    listByName := fun _ => ApiOutcome.ok ["byname"]
    createSpreadsheet := fun _ => ApiOutcome.ok "created" }

/-- C4 counterexample: a probe failure that is not an `HttpError` aborts
the whole run even though the tier-2 name search would have succeeded —
the probe's `except HttpError` clause does not catch it — refuting "every
failure of the existence probe ... falls through to the name search, never
aborting the run". -/
theorem resolver_probe_failure_fatal :
    get_spreadsheet_id badProbeEnv cachedSettings = Except.error RunError.other
      ∧ searchOrCreate badProbeEnv cachedSettings
          = Except.ok ("byname",
              { spreadsheetId := "byname", spreadsheetName := "BasketPlan Games",
                saveCount := 1 }) :=
  ⟨rfl, rfl⟩

/-- C4 (amended): with a configured id, only an `HttpError` from the
existence probe is treated as "not found" and falls through to the
tier-2/tier-3 search-or-create path; a successful probe returns the id
unchanged; any other probe failure is fatal for the run — as are a failure
of the tier-2 name search and a failure of the tier-3 creation. -/
theorem resolver_probe_classification (env : DriveEnv) (st : GSettings)
    (hid : st.spreadsheetId ≠ "") :
    (env.probeSpreadsheet st.spreadsheetId = ApiOutcome.ok () →
        get_spreadsheet_id env st = Except.ok (st.spreadsheetId, st))
      ∧ (env.probeSpreadsheet st.spreadsheetId = ApiOutcome.httpError →
        get_spreadsheet_id env st = searchOrCreate env st)
      ∧ (env.probeSpreadsheet st.spreadsheetId = ApiOutcome.otherError →
        get_spreadsheet_id env st = Except.error RunError.other)
      ∧ (env.listByName st.spreadsheetName = ApiOutcome.httpError →
        searchOrCreate env st = Except.error RunError.http)
      ∧ (env.listByName st.spreadsheetName = ApiOutcome.ok [] →
        env.createSpreadsheet st.spreadsheetName = ApiOutcome.httpError →
        searchOrCreate env st = Except.error RunError.http) := by
  refine ⟨fun h => ?_, fun h => ?_, fun h => ?_, fun h => ?_, fun h h2 => ?_⟩
  · unfold get_spreadsheet_id
    rw [if_neg hid, h]
  · unfold get_spreadsheet_id
    rw [if_neg hid, h]
  · unfold get_spreadsheet_id
    rw [if_neg hid, h]
  · unfold searchOrCreate
    rw [h]
  · unfold searchOrCreate
    rw [h, h2]

/-- An environment whose probe fails with an `HttpError`. -/
def httpProbeEnv : DriveEnv :=
  { probeSpreadsheet := fun _ => ApiOutcome.httpError
    listByName := fun _ => ApiOutcome.ok ["byname"]
    createSpreadsheet := fun _ => ApiOutcome.ok "created" }

/-- Witness for the amended C4 theorem: an `HttpError` probe failure falls
through to search-or-create. -/
theorem resolver_probe_classification_witness :
    httpProbeEnv.probeSpreadsheet cachedSettings.spreadsheetId = ApiOutcome.httpError
      ∧ get_spreadsheet_id httpProbeEnv cachedSettings
          = searchOrCreate httpProbeEnv cachedSettings :=
  ⟨rfl, (resolver_probe_classification httpProbeEnv cachedSettings (by decide)).2.1 rfl⟩

/-- An `object`-dtyped column mixing a date value and a time value across
rows. -/
def mixedColumn : Column :=
  { dtype := DType.obj, cells := [Cell.dateTime 2024 3 5, Cell.timeOfDay 14 30] }

/-- C7 counterexample: normalization is not per-cell type-driven: in a
mixed (`object`-dtyped) column, the date value `2024-03-05` is left
untouched instead of becoming the string `"2024-03-05"` — the date rule
selects whole `datetime64`-dtyped columns and never inspects individual
cells — while the time value in the same column is formatted per cell. -/
theorem normalize_not_per_cell :
    (normalizeColumn mixedColumn).cells
        = [Cell.dateTime 2024 3 5, Cell.str "14:30"]
      ∧ Cell.dateTime 2024 3 5 ≠ Cell.str (fmtDate 2024 3 5) :=
  ⟨by decide, by decide⟩

/-- C7 (amended): per-cell normalization holds for missing markers (always
becoming `""`) and time-of-day values (always becoming `"HH:MM"`); date
and duration conversion are column-driven, applying to every cell of a
column dtyped `datetime64` (dates become `"YYYY-MM-DD"`) resp.
`timedelta64` (durations become their canonical string) with no missing
value; strings and numbers pass through unchanged; a date or duration
value inside a mixed (`object`) column passes through unformatted; and a
`datetime64`/`timedelta64` column containing a missing value is coerced to
`object` dtype by the NaN replacement, after which its dates resp.
durations also pass through unformatted. -/
theorem normalize_cell_rules (col : Column) (i : Nat) :
    (col.cells.get? i = some Cell.missing →
        (normalizeColumn col).cells.get? i = some (Cell.str ""))
      ∧ (∀ hh mi, col.cells.get? i = some (Cell.timeOfDay hh mi) →
        (normalizeColumn col).cells.get? i = some (Cell.str (fmtTime hh mi)))
      ∧ (∀ y m d, col.dtype = DType.datetime64 → Cell.missing ∉ col.cells →
        col.cells.get? i = some (Cell.dateTime y m d) →
        (normalizeColumn col).cells.get? i = some (Cell.str (fmtDate y m d)))
      ∧ (∀ secs, col.dtype = DType.timedelta64 → Cell.missing ∉ col.cells →
        col.cells.get? i = some (Cell.duration secs) →
        (normalizeColumn col).cells.get? i = some (Cell.str (fmtDuration secs)))
      ∧ (∀ s2, col.cells.get? i = some (Cell.str s2) →
        (normalizeColumn col).cells.get? i = some (Cell.str s2))
      ∧ (∀ n, col.cells.get? i = some (Cell.num n) →
        (normalizeColumn col).cells.get? i = some (Cell.num n))
      ∧ (∀ y m d, col.dtype = DType.obj →
        col.cells.get? i = some (Cell.dateTime y m d) →
        (normalizeColumn col).cells.get? i = some (Cell.dateTime y m d))
      ∧ (∀ secs, col.dtype = DType.obj →
        col.cells.get? i = some (Cell.duration secs) →
        (normalizeColumn col).cells.get? i = some (Cell.duration secs))
      ∧ (∀ y m d, col.dtype = DType.datetime64 → Cell.missing ∈ col.cells →
        col.cells.get? i = some (Cell.dateTime y m d) →
        (normalizeColumn col).cells.get? i = some (Cell.dateTime y m d))
      ∧ (∀ secs, col.dtype = DType.timedelta64 → Cell.missing ∈ col.cells →
        col.cells.get? i = some (Cell.duration secs) →
        (normalizeColumn col).cells.get? i = some (Cell.duration secs)) := by
  refine ⟨fun h => normalizeColumn_missing h,
    fun hh mi h => normalizeColumn_time h,
    fun y m d hdt hm h => normalizeColumn_date hdt hm h,
    fun secs hdt hm h => normalizeColumn_duration hdt hm h,
    fun s2 h => normalizeColumn_inert h rfl rfl rfl rfl,
    fun n h => normalizeColumn_inert h rfl rfl rfl rfl,
    fun y m d hdt h => normalizeColumn_obj hdt h,
    fun secs hdt h => normalizeColumn_obj hdt h,
    fun y m d hdt hm h => normalizeColumn_coerced (by simp [replaceStep, hdt, hm]) h,
    fun secs hdt hm h => normalizeColumn_coerced (by simp [replaceStep, hdt, hm]) h⟩

/-- A `datetime64` column containing a missing value, which the NaN
replacement coerces to `object` dtype before the date formatting step. -/
def coercedColumn : Column :=
  { dtype := DType.datetime64, cells := [Cell.missing, Cell.dateTime 2024 3 5] }

/-- Witness for the amended C7 theorem: on the mixed column the time cell
is formatted per cell while the date cell passes through unformatted, and
on the missing-containing `datetime64` column the date cell also escapes
formatting. -/
theorem normalize_cell_rules_witness :
    mixedColumn.cells.get? 1 = some (Cell.timeOfDay 14 30)
      ∧ (normalizeColumn mixedColumn).cells.get? 1 = some (Cell.str (fmtTime 14 30))
      ∧ (normalizeColumn mixedColumn).cells.get? 0 = some (Cell.dateTime 2024 3 5)
      ∧ (normalizeColumn coercedColumn).cells.get? 1 = some (Cell.dateTime 2024 3 5) :=
  ⟨by decide, (normalize_cell_rules mixedColumn 1).2.1 14 30 (by decide),
    ((normalize_cell_rules mixedColumn 0).2.2.2.2.2.2.1) 2024 3 5 rfl (by decide),
    ((normalize_cell_rules coercedColumn 1).2.2.2.2.2.2.2.2.1) 2024 3 5 rfl
      (by decide) (by decide)⟩

/-- C10: a configured team whose id is absent or empty is skipped before
any remote call: the loop iteration for it is literally the loop over the
remaining teams — no download event, no sheet update event, and no table
accumulated for the combined sheet. -/
theorem skip_team_without_id (env : FetchEnv) (t : Team) (rest : List Team)
    (h : t.id = "") :
    processTeams env (t :: rest) = processTeams env rest := by
  show (let step := processTeam env t
        let acc := processTeams env rest
        (step.1 ++ acc.1, step.2.toList ++ acc.2)) = processTeams env rest
  have hstep : processTeam env t = ([], none) := by
    unfold processTeam
    rw [if_pos h]
  rw [hstep]
  simp

/-- Witness for the C10 theorem: a team without an id contributes nothing
to the run. -/
theorem skip_team_without_id_witness :
    (Team.mk "NoId" "").id = ""
      ∧ processTeams { fetch := fun _ => none } [Team.mk "NoId" ""]
          = processTeams { fetch := fun _ => none } [] :=
  ⟨rfl, skip_team_without_id { fetch := fun _ => none } (Team.mk "NoId" "") [] rfl⟩

end SBGC
